import Mathlib

/-!
Shallow embedding of `src/dse_allotment_search.py` (class `DSEAllotmentSearcher`).

Text is modelled as Lean `String`; the Python string operations used by the
script (`lower`, `strip`, `split`, the `in` substring test, `endswith`,
slicing, `isdigit`) are defined below over the underlying character lists,
restricted to the ASCII behaviour the script relies on.

Effects are made explicit: HTTP responses and PDF text extraction become
`Except`-valued inputs, the filesystem becomes explicit parameters (file
listings, existence flags), and a download task additionally returns a
record of the effects it performed (whether it issued a network request,
what it wrote to disk).
-/

namespace DSE

/-- ASCII model of Python `str.lower` (the script only compares Latin text). -/
def pyLower (s : String) : String := ⟨s.data.map Char.toLower⟩

/-- The whitespace characters Python `str.strip` removes (ASCII range). -/
def isPySpace (c : Char) : Bool :=
  c == ' ' || c == '\t' || c == '\n' || c == '\r' || c == '\x0b' || c == '\x0c'

/-- Python `str.strip` on the underlying character list. -/
def pyStripL (l : List Char) : List Char :=
  ((l.dropWhile isPySpace).reverse.dropWhile isPySpace).reverse

/-- Python `str.strip`: remove leading and trailing whitespace. -/
def pyStrip (s : String) : String := ⟨pyStripL s.data⟩

/-- Substring test on character lists: does `needle` occur contiguously in
`hay`?  (Python `needle in hay`; the empty needle occurs in everything.) -/
def hasSubL (needle : List Char) : List Char → Bool
  | [] => needle.isEmpty
  | c :: t => needle.isPrefixOf (c :: t) || hasSubL needle t

/-- Python `needle in hay` for strings. -/
def strContains (hay needle : String) : Bool := hasSubL needle.data hay.data

/-- Python `s.split(sep)` restricted to a single-character separator, on the
underlying list: `"ab\ncd\n"` splits into `["ab", "cd", ""]`. -/
def splitChar (sep : Char) : List Char → List (List Char)
  | [] => [[]]
  | c :: t =>
    if c = sep then [] :: splitChar sep t
    else
      match splitChar sep t with
      | [] => [[c]]
      | l :: ls => (c :: l) :: ls

/-- Python `s.split(sep)` for a one-character separator string. -/
def pySplit (s : String) (sep : Char) : List String :=
  (splitChar sep s.data).map fun l => ⟨l⟩

/-- Python `s.endswith(suf)`. -/
def pyEndsWith (s suf : String) : Bool := suf.data.isSuffixOf s.data

/-- Python `s[:n]` slicing from the start. -/
def pyTake (s : String) (n : Nat) : String := ⟨s.data.take n⟩

/-- Python `str.isdigit` (ASCII digits): nonempty and all characters `0`-`9`. -/
def pyIsDigit (s : String) : Bool := !s.data.isEmpty && s.data.all Char.isDigit

/-! ## The Matcher (`search_pdf`, lines 163-183)

`search_pdf` opens a PDF, extracts each page's text, concatenates them with a
`"\n"` after every page, and searches case-insensitively.  We model the
extraction outcome as an `Except`: `.ok pages` is the list of per-page texts,
`.error e` is the message of the exception raised while reading the file. -/

/-- `full_text`: the page texts concatenated, each followed by `"\n"`
(`full_text += page.extract_text() + "\n"`). -/
def fullText (pages : List String) : String :=
  pages.foldl (fun acc p => acc ++ p ++ "\n") ""

/-- `search_pdf` (lines 163-183): returns `(found, context_lines)`; any
extraction error is caught and reported as a not-found result whose sole
context line embeds the error message. -/
def search_pdf (doc : Except String (List String)) (search_name : String) :
    Bool × List String :=
  match doc with
  | .error e => (false, ["Error reading PDF: " ++ e])
  | .ok pages =>
    let full_text := fullText pages
    if strContains (pyLower full_text) (pyLower search_name) then
      let lines := pySplit full_text '\n'
      let matching_lines :=
        (lines.filter fun line =>
          strContains (pyLower line) (pyLower search_name)
            && !(pyStrip line).data.isEmpty).map pyStrip
      (true, matching_lines.take 3)
    else (false, [])

/-! Claim-side characterisations of the Matcher's context lines.  `T` is the
concatenated text `fullText pages`; its lines are `pySplit T '\n'`. -/

/-- Context as the specification claims it: the first 3 lines of `T`, in
original order and trimmed, whose case-folded form contains the case-folded
search string (no further condition). -/
def matcherContextClaimed (pages : List String) (search_name : String) :
    List String :=
  (((pySplit (fullText pages) '\n').filter fun line =>
      strContains (pyLower line) (pyLower search_name)).take 3).map pyStrip

/-- Context as amended: additionally require each collected line to be
nonempty after trimming (the code's `and line.strip()` conjunct). -/
def matcherContextAmended (pages : List String) (search_name : String) :
    List String :=
  (((pySplit (fullText pages) '\n').filter fun line =>
      strContains (pyLower line) (pyLower search_name)
        && !(pyStrip line).data.isEmpty).take 3).map pyStrip

/-! ## The catalog (`self.colleges_data`)

A Python dict keyed by the institute-code string.  We model it as an
association list in insertion order; assigning to an existing key replaces
its value in place (as a dict does), assigning to a fresh key appends. -/

/-- One value of `colleges_data`: `{'sr_no': ..., 'name': ..., 'code': ...}`. -/
structure CollegeRec where
  sr_no : String
  name : String
  code : String
deriving DecidableEq, Repr

/-- The catalog: dict entries in insertion order, keys pairwise distinct
whenever it is built by `dinsert` from `[]`. -/
abbrev Catalog : Type := List (String × CollegeRec)

/-- Python `d[k] = v`: overwrite in place if `k` is present, else append. -/
def dinsert (k : String) (v : CollegeRec) (d : Catalog) : Catalog :=
  if (List.any d fun p => p.1 == k) then
    List.map (fun p => if p.1 == k then (k, v) else p) d
  else d ++ [(k, v)]

/-- Python `d.get(k)`: the value stored at `k`, if any. -/
def dlookup (d : Catalog) (k : String) : Option CollegeRec :=
  (List.find? (fun p => p.1 == k) d).map fun p => p.2

/-- Python `d.keys()` (insertion order). -/
def dictKeys (d : Catalog) : List String := List.map (fun p => p.1) d

/-! ## The Catalog Builder (`scrape_college_data`, lines 34-74)

A fetched HTML table is modelled as the list of its `tr` rows, each row the
list of the raw texts of its `td` cells; `get_text(strip=True)` is modelled
by applying `pyStrip` to the raw cell text.  The whole fetch-and-parse is
modelled as an `Except`: `.error e` is any network error, non-success HTTP
status or parse failure. -/

/-- One `tr` row: the raw texts of its `td` cells. -/
structure HtmlRow where
  cells : List String
deriving DecidableEq, Repr

/-- Processing of one data row (the body of the `for row in rows[1:]` loop):
require at least 3 cells, read cells 0-2, skip non-numeric codes, store. -/
def scrapeStep (d : Catalog) (row : HtmlRow) : Catalog :=
  if 3 ≤ row.cells.length then
    let sr_no := pyStrip (row.cells.getD 0 "")
    let institute_code := pyStrip (row.cells.getD 1 "")
    let institute_name := pyStrip (row.cells.getD 2 "")
    if pyIsDigit institute_code then
      dinsert institute_code
        ⟨sr_no, institute_name, institute_code⟩ d
    else d
  else d

/-- The eight fixed fallback ranges of `generate_fallback_codes`
(Python `range(a, b)` pairs, lines 79-88). -/
def code_ranges : List (Nat × Nat) :=
  [(1002, 1300), (2008, 2800), (3012, 3600), (4004, 4800),
   (5003, 5600), (6004, 7000), (14005, 14006), (16006, 16200)]

/-- Python `range(a, b)` as a list. -/
def pyRange (r : Nat × Nat) : List Nat := List.range' r.1 (r.2 - r.1)

/-- The fallback entry stored for numeric code `n`: empty sequence number,
generic name, code as a string. -/
def fallbackEntry (n : Nat) : String × CollegeRec :=
  (toString n, ⟨"", "Institute " ++ toString n, toString n⟩)

/-- `generate_fallback_codes` (lines 76-96), starting from the empty catalog
the failing scrape left behind. -/
def generate_fallback_codes : Catalog :=
  code_ranges.foldl
    (fun d r =>
      (pyRange r).foldl
        (fun d' n => dinsert (fallbackEntry n).1 (fallbackEntry n).2 d') d)
    []

/-- `scrape_college_data` (lines 34-74): on a successful fetch, parse the
rows (skipping the header) and return `true`; on any failure, populate the
fallback catalog and return `false`. -/
def scrape_college_data (fetch : Except String (List HtmlRow)) :
    Bool × Catalog :=
  match fetch with
  | .ok rows => (true, (rows.drop 1).foldl scrapeStep [])
  | .error _ => (false, generate_fallback_codes)

/-- Claim-side row contribution for the Catalog Builder: a data row yields an
entry exactly when it has at least 3 cells and its code cell (cell 1) is
purely numeric; the entry takes sequence number, code and name from cells
0, 1 and 2. -/
def rowEntry (row : HtmlRow) : Option (String × CollegeRec) :=
  if 3 ≤ row.cells.length then
    let sr_no := pyStrip (row.cells.getD 0 "")
    let institute_code := pyStrip (row.cells.getD 1 "")
    let institute_name := pyStrip (row.cells.getD 2 "")
    if pyIsDigit institute_code then
      some (institute_code, ⟨sr_no, institute_name, institute_code⟩)
    else none
  else none

/-- Claim-side list of the codes implied by the eight fallback ranges. -/
def fallbackCodes : List String :=
  code_ranges.flatMap fun r => (pyRange r).map fun n => toString n

/-! ## The Download Manager (`download_pdf`, lines 98-120; `download_all_pdfs`,
lines 122-161)

A single task's inputs are made explicit: whether the local file already
exists, and the outcome of the (at most one) HTTP GET — `.error e` covers
network errors and non-2xx statuses (`raise_for_status`), `.ok` carries the
declared content type and the body.  Besides the `(path, success, message)`
triple the Python function returns, the model records the effects the task
performed: whether it issued the GET and what it wrote to disk. -/

/-- A successful HTTP response: declared content type and body bytes. -/
structure HttpResp where
  contentType : String
  content : String
deriving DecidableEq, Repr

/-- The `(local_path, success, message)` triple `download_pdf` returns. -/
structure DLRes where
  local_path : String
  success : Bool
  message : String
deriving DecidableEq, Repr

/-- The effects a download task performed. -/
structure DLEff where
  requested : Bool
  written : Option String
deriving DecidableEq, Repr

/-- `local_path = f"{self.pdf_dir}/{cap_round}/{institute_code}_4.pdf"`. -/
def local_path (institute_code cap_round : String) : String :=
  "dse_pdfs/" ++ cap_round ++ "/" ++ institute_code ++ "_4.pdf"

/-- `download_pdf` (lines 98-120). -/
def download_pdf (institute_code cap_round : String) (fileExists : Bool)
    (resp : Except String HttpResp) : DLRes × DLEff :=
  let lp := local_path institute_code cap_round
  if fileExists then
    (⟨lp, true, "Already exists"⟩, ⟨false, none⟩)
  else
    match resp with
    | .error e =>
      (⟨lp, false, "Error: " ++ pyTake e 50⟩, ⟨true, none⟩)
    | .ok r =>
      if strContains r.contentType "application/pdf" then
        (⟨lp, true, "Downloaded"⟩, ⟨true, some r.content⟩)
      else
        (⟨lp, false, "Not a PDF"⟩, ⟨true, none⟩)

/-- The tallies `download_all_pdfs` prints. -/
structure DLTally where
  successful_downloads : Nat
  failed_downloads : Nat
  already_exists : Nat
deriving DecidableEq, Repr

/-- Classification of one completed future (lines 141-156): a raised
exception counts as failed; otherwise `success` with `"Already exists"` in
the message counts as already-existed, any other success as downloaded, and
the rest as failed. -/
def tallyStep (t : DLTally) (outcome : Except String DLRes) : DLTally :=
  match outcome with
  | .error _ => { t with failed_downloads := t.failed_downloads + 1 }
  | .ok r =>
    if r.success && strContains r.message "Already exists" then
      { t with already_exists := t.already_exists + 1 }
    else if r.success then
      { t with successful_downloads := t.successful_downloads + 1 }
    else
      { t with failed_downloads := t.failed_downloads + 1 }

/-- `download_all_pdfs` (lines 122-161): two tasks per catalog key, each
completed future classified into exactly one tally.  `outcome` assigns every
task its result (or the exception its future raised); the tallies do not
depend on the completion order, so the tasks are folded in submission
order. -/
def download_all_pdfs (d : Catalog)
    (outcome : String → String → Except String DLRes) : DLTally :=
  let download_tasks :=
    (dictKeys d).flatMap fun code => [(code, "cap1"), (code, "cap2")]
  download_tasks.foldl
    (fun t task => tallyStep t (outcome task.1 task.2)) ⟨0, 0, 0⟩

/-! ## The Search Orchestrator (`search_all_pdfs`, lines 185-217)

The filesystem is explicit: a round directory is its existence flag plus the
directory listing, and `extract` gives each file's extraction outcome (the
per-page texts, or the message of the exception `PyPDF2` raised). -/

/-- One result entry appended on a match (lines 209-214). -/
structure SearchHit where
  institute_code : String
  college_name : String
  pdf_file : String
  context : List String
deriving DecidableEq, Repr

/-- The `results` dict keyed by round (lines 189-192). -/
structure SearchResults where
  cap1 : List SearchHit
  cap2 : List SearchHit
deriving DecidableEq, Repr

/-- One round directory: whether it exists, and its file listing. -/
structure RoundDir where
  dirExists : Bool
  files : List String
deriving DecidableEq, Repr

/-- `institute_code = pdf_file.split('_')[0]`: the part before the first
underscore. -/
def instCodeOfFile (pdf_file : String) : String :=
  ⟨pdf_file.data.takeWhile fun c => c ≠ '_'⟩

/-- `self.colleges_data.get(code, {}).get('name', f'Institute ...')`:
the stored name, or the generic label when the code is absent. -/
def resolveName (d : Catalog) (institute_code : String) : String :=
  match dlookup d institute_code with
  | some r => r.name
  | none => "Institute " ++ institute_code

/-- One round of `search_all_pdfs` (the body of the `for cap_round` loop):
skip an absent directory, keep the `.pdf` files, search each and append a
hit for every file on which the Matcher reports found. -/
def searchRound (d : Catalog) (dir : RoundDir)
    (extract : String → Except String (List String)) (search_name : String) :
    List SearchHit :=
  if dir.dirExists then
    (dir.files.filter fun f => pyEndsWith f ".pdf").foldl
      (fun acc pdf_file =>
        let institute_code := instCodeOfFile pdf_file
        let res := search_pdf (extract pdf_file) search_name
        if res.1 then
          acc ++ [⟨institute_code, resolveName d institute_code,
                   pdf_file, res.2⟩]
        else acc) []
  else []

/-- `search_all_pdfs` (lines 185-217): the two rounds in fixed order. -/
def search_all_pdfs (d : Catalog) (cap1Dir cap2Dir : RoundDir)
    (extract1 extract2 : String → Except String (List String))
    (search_name : String) : SearchResults :=
  ⟨searchRound d cap1Dir extract1 search_name,
   searchRound d cap2Dir extract2 search_name⟩

/-! ## The Interactive Driver (`run`, lines 251-280) -/

/-- The download gate of `run` (lines 260-262): returns whether
`download_all_pdfs` is invoked for a given raw answer to the prompt
(`input(...).strip().lower() != 'n'`). -/
def run_download_phase (answer : String) : Bool :=
  let download_choice := pyLower (pyStrip answer)
  if download_choice ≠ "n" then true else false

/-! ## Auxiliary definitions used by the verification -/

/-- The fallback catalog's entries as one flat list, in the order
`generate_fallback_codes` inserts them. -/
def fallbackEntries : List (String × CollegeRec) :=
  code_ranges.flatMap fun r => (pyRange r).map fallbackEntry

/-- The end-to-end scenario's catalog: one college, code `1002`. -/
def e2eCatalog : Catalog := [("1002", ⟨"1", "Test College", "1002"⟩)]

/-- The end-to-end scenario's `cap1` directory: one downloaded PDF. -/
def e2eRound1 : RoundDir := ⟨true, ["1002_4.pdf"]⟩

/-- The end-to-end scenario's `cap2` directory: present but empty. -/
def e2eRound2 : RoundDir := ⟨true, []⟩

/-- The end-to-end scenario's extraction: `1002_4.pdf` holds the two lines
`John Doe` and `Jane Roe`; no other file is readable. -/
def e2eExtract : String → Except String (List String) := fun f =>
  if f == "1002_4.pdf" then .ok ["John Doe\nJane Roe"] else .error "missing"

/-- An extraction in which `bad.pdf` is corrupt and every other file behaves
as in the end-to-end scenario. -/
def badExtract : String → Except String (List String) := fun f =>
  if f == "bad.pdf" then .error "broken" else e2eExtract f

/-! # Helper lemmas -/

/-- Folding an append-if step is a `filterMap` of the traversed list. -/
theorem foldl_append_ite_filterMap {α β : Type} (p : α → Bool) (g : α → β)
    (l : List α) : ∀ acc : List β,
      l.foldl (fun a x => if p x = true then a ++ [g x] else a) acc
        = acc ++ l.filterMap fun x => if p x = true then some (g x) else none := by
  induction l with
  | nil => intro acc; simp
  | cons x t ih =>
    intro acc
    by_cases h : p x = true
    · simp [h, ih]
    · simp [h, ih]

/-- Overwriting key `k` does not disturb lookups of other keys. -/
theorem find?_map_overwrite_ne (k x : String) (v : CollegeRec) (hxk : x ≠ k)
    (d : Catalog) :
    List.find? (fun p => p.1 == x)
        (List.map (fun p => if p.1 == k then (k, v) else p) d)
      = List.find? (fun p => p.1 == x) d := by
  induction d with
  | nil => rfl
  | cons a t ih =>
    rw [List.map_cons]
    by_cases ha : a.1 = k
    · have h1 : (if (a.1 == k) = true then (k, v) else a) = (k, v) := by
        simp [ha]
      rw [h1, List.find?_cons_of_neg _ (by simp [Ne.symm hxk]),
        List.find?_cons_of_neg _ (by simp [ha, Ne.symm hxk])]
      exact ih
    · have h1 : (if (a.1 == k) = true then (k, v) else a) = a := by
        simp [ha]
      rw [h1]
      by_cases hx : a.1 = x
      · rw [List.find?_cons_of_pos _ (by simp [hx]),
          List.find?_cons_of_pos _ (by simp [hx])]
      · rw [List.find?_cons_of_neg _ (by simp [hx]),
          List.find?_cons_of_neg _ (by simp [hx])]
        exact ih

/-- Overwriting key `k` makes `k` look up the new value, provided some entry
with key `k` exists. -/
theorem find?_map_overwrite_eq (k : String) (v : CollegeRec) (d : Catalog)
    (hany : (List.any d fun p => p.1 == k) = true) :
    List.find? (fun p => p.1 == k)
        (List.map (fun p => if p.1 == k then (k, v) else p) d)
      = some (k, v) := by
  induction d with
  | nil => simp at hany
  | cons a t ih =>
    rw [List.map_cons]
    by_cases ha : a.1 = k
    · have h1 : (if (a.1 == k) = true then (k, v) else a) = (k, v) := by
        simp [ha]
      rw [h1, List.find?_cons_of_pos _ (by simp)]
    · have h1 : (if (a.1 == k) = true then (k, v) else a) = a := by
        simp [ha]
      rw [h1, List.find?_cons_of_neg _ (by simp [ha])]
      apply ih
      have := List.any_eq_true.mp hany
      rcases this with ⟨p, hp, hpk⟩
      rcases List.mem_cons.mp hp with h | h
      · subst h; simp [ha] at hpk
      · exact List.any_eq_true.mpr ⟨p, h, hpk⟩

/-- Python dict assignment followed by lookup: the assigned key reads the new
value, every other key is untouched. -/
theorem dlookup_dinsert (k : String) (v : CollegeRec) (d : Catalog)
    (x : String) :
    dlookup (dinsert k v d) x = if x = k then some v else dlookup d x := by
  unfold dinsert dlookup
  by_cases hany : (List.any d fun p => p.1 == k) = true
  · simp only [hany, if_pos]
    by_cases hxk : x = k
    · subst hxk
      rw [find?_map_overwrite_eq x v d hany]
      simp
    · rw [find?_map_overwrite_ne k x v hxk d]
      simp [hxk]
  · simp only [hany, if_neg, Bool.not_eq_true]
    rw [List.find?_append]
    by_cases hxk : x = k
    · subst hxk
      have hnone : List.find? (fun p => p.1 == x) d = none := by
        rw [List.find?_eq_none]
        intro p hp hb
        exact hany (List.any_eq_true.mpr ⟨p, hp, hb⟩)
      simp [hnone, List.find?_cons]
    · have hone : List.find? (fun p => p.1 == x) [(k, v)] = none := by
        simp [List.find?_cons, Ne.symm hxk]
      simp [hone, hxk]

/-- Looking up a catalog built by repeated dict assignment: the value of the
last entry carrying the key wins, else the starting catalog answers. -/
theorem dlookup_foldl_dinsert (x : String) :
    ∀ (entries : List (String × CollegeRec)) (d0 : Catalog),
      dlookup (entries.foldl (fun d p => dinsert p.1 p.2 d) d0) x
        = ((entries.reverse.find? fun p => p.1 == x).map fun p => p.2).or
            (dlookup d0 x) := by
  intro entries
  induction entries with
  | nil => intro d0; simp
  | cons a t ih =>
    intro d0
    rw [List.foldl_cons, ih, List.reverse_cons, List.find?_append]
    cases hfind : List.find? (fun p => p.1 == x) t.reverse with
    | some p => simp
    | none =>
      simp only [hfind, Option.none_or, Option.map_none]
      rw [dlookup_dinsert]
      by_cases hx : x = a.1
      · rw [List.find?_cons_of_pos _ (by simp [hx])]
        simp [hx]
      · rw [List.find?_cons_of_neg _ (by simp [Ne.symm hx])]
        simp [hx]

/-- One scrape-loop iteration is the dict assignment of the row's
contribution, when it has one. -/
theorem scrapeStep_eq_rowEntry (d : Catalog) (row : HtmlRow) :
    scrapeStep d row
      = match rowEntry row with
        | some p => dinsert p.1 p.2 d
        | none => d := by
  unfold scrapeStep rowEntry
  by_cases h3 : 3 ≤ row.cells.length
  · simp only [h3, if_pos]
    split
    · rfl
    · rfl
  · simp [h3]

/-- Folding the scrape loop is folding dict assignments of the row
contributions. -/
theorem foldl_scrapeStep_filterMap :
    ∀ (rows : List HtmlRow) (d0 : Catalog),
      rows.foldl scrapeStep d0
        = (rows.filterMap rowEntry).foldl (fun d p => dinsert p.1 p.2 d) d0 := by
  intro rows
  induction rows with
  | nil => intro d0; rfl
  | cons row t ih =>
    intro d0
    rw [List.foldl_cons, List.filterMap_cons, ih, scrapeStep_eq_rowEntry]
    cases rowEntry row with
    | some p => rfl
    | none => rfl

/-- A doubly nested fold over ranges is a fold over the flattened list. -/
theorem foldl_foldl_flatMap {α β : Type} (g : α → List β)
    (step : Catalog → β → Catalog) :
    ∀ (l : List α) (d0 : Catalog),
      l.foldl (fun d r => (g r).foldl step d) d0 = (l.flatMap g).foldl step d0 := by
  intro l
  induction l with
  | nil => intro d0; rfl
  | cons a t ih =>
    intro d0
    rw [List.foldl_cons, List.flatMap_cons, List.foldl_append, ih]

/-- The fallback generator is the fold of dict assignments of
`fallbackEntries`. -/
theorem generate_fallback_codes_eq_foldl :
    generate_fallback_codes
      = fallbackEntries.foldl (fun d p => dinsert p.1 p.2 d) [] := by
  unfold generate_fallback_codes fallbackEntries
  rw [← foldl_foldl_flatMap (fun r => (pyRange r).map fallbackEntry)
    (fun d p => dinsert p.1 p.2 d) code_ranges []]
  congr 1
  funext d r
  rw [List.foldl_map]

/-- Every fallback entry is determined by its key. -/
theorem fallbackEntries_val (p : String × CollegeRec)
    (hp : p ∈ fallbackEntries) : p.2 = ⟨"", "Institute " ++ p.1, p.1⟩ := by
  rcases List.mem_flatMap.mp hp with ⟨r, _, hmem⟩
  rcases List.mem_map.mp hmem with ⟨n, _, rfl⟩
  rfl

/-- The keys of the fallback entries are exactly the fallback codes. -/
theorem fallbackEntries_keys :
    fallbackEntries.map (fun p => p.1) = fallbackCodes := by
  unfold fallbackEntries fallbackCodes
  rw [List.map_flatMap]
  congr 1
  funext r
  rw [List.map_map]
  rfl

/-- Membership in the fallback code list, by range. -/
theorem mem_fallbackCodes_of (n : Nat) (r : Nat × Nat)
    (hr : r ∈ code_ranges) (hn : n ∈ pyRange r) :
    toString n ∈ fallbackCodes := by
  unfold fallbackCodes
  exact List.mem_flatMap.mpr ⟨r, hr, List.mem_map.mpr ⟨n, hn, rfl⟩⟩

/-- The per-round search loop as a `filterMap` over the `.pdf` files. -/
theorem searchRound_eq_filterMap (d : Catalog) (dir : RoundDir)
    (extract : String → Except String (List String)) (search_name : String) :
    searchRound d dir extract search_name
      = if dir.dirExists then
          (dir.files.filter fun f => pyEndsWith f ".pdf").filterMap fun f =>
            if (search_pdf (extract f) search_name).1 = true then
              some ⟨instCodeOfFile f, resolveName d (instCodeOfFile f), f,
                    (search_pdf (extract f) search_name).2⟩
            else none
        else [] := by
  unfold searchRound
  by_cases hex : dir.dirExists
  · simp only [hex, if_pos]
    exact foldl_append_ite_filterMap _ _ _ []
  · simp [hex]

/-- The Matcher only sees the case-folded search string. -/
theorem search_pdf_congr (doc : Except String (List String))
    (s s' : String) (h : pyLower s = pyLower s') :
    search_pdf doc s = search_pdf doc s' := by
  cases doc with
  | error e => rfl
  | ok pages => simp only [search_pdf, h]

/-- The per-round search over a single well-named file. -/
theorem searchRound_singleton (d : Catalog)
    (extract : String → Except String (List String)) (s f : String)
    (hf : pyEndsWith f ".pdf" = true) :
    searchRound d ⟨true, [f]⟩ extract s
      = if (search_pdf (extract f) s).1 = true then
          [⟨instCodeOfFile f, resolveName d (instCodeOfFile f), f,
            (search_pdf (extract f) s).2⟩]
        else [] := by
  rw [searchRound_eq_filterMap]
  simp only [if_pos trivial]
  have hfil : List.filter (fun g => pyEndsWith g ".pdf") [f] = [f] := by
    simp [hf]
  rw [hfil]
  by_cases hcond : (search_pdf (extract f) s).1 = true
  · simp [hcond]
  · simp [hcond]

/-- One completed future bumps the three tallies' total by exactly one. -/
theorem tallyStep_total (t : DLTally) (o : Except String DLRes) :
    (tallyStep t o).successful_downloads + (tallyStep t o).already_exists
        + (tallyStep t o).failed_downloads
      = t.successful_downloads + t.already_exists + t.failed_downloads + 1 := by
  cases o with
  | error e =>
    simp only [tallyStep]
    omega
  | ok r =>
    simp only [tallyStep]
    by_cases h1 : (r.success && strContains r.message "Already exists") = true
    · rw [if_pos h1]; dsimp only; omega
    · rw [if_neg h1]
      by_cases h2 : r.success = true
      · rw [if_pos h2]; dsimp only; omega
      · rw [if_neg h2]; dsimp only; omega

/-- Folding completed futures adds the number of tasks to the total. -/
theorem tally_foldl_total (outcome : String → String → Except String DLRes) :
    ∀ (tasks : List (String × String)) (t0 : DLTally),
      ((tasks.foldl (fun t task => tallyStep t (outcome task.1 task.2))
          t0).successful_downloads
        + (tasks.foldl (fun t task => tallyStep t (outcome task.1 task.2))
            t0).already_exists
        + (tasks.foldl (fun t task => tallyStep t (outcome task.1 task.2))
            t0).failed_downloads)
      = t0.successful_downloads + t0.already_exists + t0.failed_downloads
        + tasks.length := by
  intro tasks
  induction tasks with
  | nil => intro t0; simp
  | cons task t ih =>
    intro t0
    rw [List.foldl_cons, ih, tallyStep_total]
    simp [List.length_cons]
    omega

/-- Enumerating two rounds per key doubles the key count. -/
theorem flatMap_two_rounds_length :
    ∀ l : List String,
      (l.flatMap fun code => [(code, "cap1"), (code, "cap2")]).length
        = 2 * l.length := by
  intro l
  induction l with
  | nil => rfl
  | cons a t ih =>
    rw [List.flatMap_cons, List.length_append, ih]
    simp
    omega

/-- The fallback catalog looks keys up in the flat entry list, last wins. -/
theorem dlookup_fallback (x : String) :
    dlookup generate_fallback_codes x
      = (fallbackEntries.reverse.find? fun p => p.1 == x).map fun p => p.2 := by
  rw [generate_fallback_codes_eq_foldl, dlookup_foldl_dinsert]
  rw [show dlookup ([] : Catalog) x = none from rfl, Option.or_none]

/-- A fallback lookup succeeds exactly for the codes of the fixed ranges. -/
theorem dlookup_fallback_isSome (x : String) :
    (dlookup generate_fallback_codes x).isSome = true ↔ x ∈ fallbackCodes := by
  rw [dlookup_fallback]
  constructor
  · intro hs
    cases hfind : fallbackEntries.reverse.find? (fun p => p.1 == x) with
    | none => rw [hfind] at hs; simp at hs
    | some p =>
      have hkey : p.1 = x := by simpa using List.find?_some hfind
      have hmem : p ∈ fallbackEntries :=
        List.mem_reverse.mp (List.mem_of_find?_eq_some hfind)
      have hk : p.1 ∈ fallbackEntries.map fun q => q.1 :=
        List.mem_map.mpr ⟨p, hmem, rfl⟩
      rw [fallbackEntries_keys] at hk
      rwa [hkey] at hk
  · intro hx
    rw [← fallbackEntries_keys] at hx
    rcases List.mem_map.mp hx with ⟨p, hp, rfl⟩
    cases hfind : fallbackEntries.reverse.find? (fun q => q.1 == p.1) with
    | some q => simp [hfind]
    | none =>
      exfalso
      rw [List.find?_eq_none] at hfind
      exact hfind p (List.mem_reverse.mpr hp) (by simp)

/-- A fallback lookup of a range code yields the generic entry. -/
theorem dlookup_fallback_mem (x : String) (hx : x ∈ fallbackCodes) :
    dlookup generate_fallback_codes x
      = some ⟨"", "Institute " ++ x, x⟩ := by
  rw [dlookup_fallback]
  rw [← fallbackEntries_keys] at hx
  rcases List.mem_map.mp hx with ⟨p, hp, rfl⟩
  cases hfind : fallbackEntries.reverse.find? (fun q => q.1 == p.1) with
  | none =>
    exfalso
    rw [List.find?_eq_none] at hfind
    exact hfind p (List.mem_reverse.mpr hp) (by simp)
  | some q =>
    have hkey : q.1 = p.1 := by simpa using List.find?_some hfind
    have hqmem : q ∈ fallbackEntries :=
      List.mem_reverse.mp (List.mem_of_find?_eq_some hfind)
    have hval := fallbackEntries_val q hqmem
    show some q.2 = some ⟨"", "Institute " ++ p.1, p.1⟩
    rw [hval, hkey]

/-- The code `1002` belongs to the first fallback range. -/
theorem mem_fallbackCodes_1002 : "1002" ∈ fallbackCodes := by
  have h := mem_fallbackCodes_of 1002 (1002, 1300) (by simp [code_ranges])
    (by simp [pyRange, List.mem_range'_1])
  rwa [show toString 1002 = "1002" by decide] at h

/-! # Claim theorems -/

/-- C1 (amended): for every extracted page list and search string, the
Matcher reports found exactly when the case-folded search string is a
substring of the case-folded concatenated text, and when found its context
is the first 3 (or fewer) lines of that text, in original order and trimmed,
whose case-folded form contains the case-folded search string and whose
trimmed form is nonempty. -/
theorem matcher_found_iff_and_context_trimmed (pages : List String)
    (s : String) :
    (search_pdf (.ok pages) s).1
        = strContains (pyLower (fullText pages)) (pyLower s) ∧
    ((search_pdf (.ok pages) s).1 = true →
      (search_pdf (.ok pages) s).2 = matcherContextAmended pages s) := by
  constructor
  · cases hb : strContains (pyLower (fullText pages)) (pyLower s) with
    | true => simp [search_pdf, hb]
    | false => simp [search_pdf, hb]
  · intro hf
    cases hb : strContains (pyLower (fullText pages)) (pyLower s) with
    | true => simp [search_pdf, matcherContextAmended, hb, List.map_take]
    | false => simp [search_pdf, hb] at hf

/-- C1 witness: in the two-line document the search string `doe` is found
and the context is as the amended claim computes it. -/
theorem matcher_found_iff_and_context_trimmed_witness :
    (search_pdf (.ok ["John Doe\nJane Roe"]) "doe").1 = true ∧
    (search_pdf (.ok ["John Doe\nJane Roe"]) "doe").2
      = matcherContextAmended ["John Doe\nJane Roe"] "doe" :=
  ⟨by decide,
   (matcher_found_iff_and_context_trimmed ["John Doe\nJane Roe"] "doe").2
     (by decide)⟩

/-- C1 counterexample: with the whitespace-only search string of three
spaces, the code returns found with context `["x"]`, while the claimed
context also keeps the line that trims to the empty string. -/
theorem matcher_context_claim_counterexample :
    (search_pdf (.ok ["    x", "   "]) "   ").1 = true ∧
    (search_pdf (.ok ["    x", "   "]) "   ").2
      ≠ matcherContextClaimed ["    x", "   "] "   " := by
  decide

/-- C5: when the local file already exists, the download task performs no
network request, writes nothing, and reports the already-present outcome,
whatever the network would have answered. -/
theorem download_existing_skips (institute_code cap_round : String)
    (resp : Except String HttpResp) :
    download_pdf institute_code cap_round true resp
      = (⟨local_path institute_code cap_round, true, "Already exists"⟩,
         ⟨false, none⟩) := rfl

/-- C6: a successful response whose declared content type does not indicate
a PDF produces no write and a failure report, and a network exception
produces no write and a failure report with a truncated error message. -/
theorem download_failure_writes_nothing :
    (∀ institute_code cap_round ct body : String,
        strContains ct "application/pdf" = false →
          download_pdf institute_code cap_round false (.ok ⟨ct, body⟩)
            = (⟨local_path institute_code cap_round, false, "Not a PDF"⟩,
               ⟨true, none⟩)) ∧
    (∀ institute_code cap_round e : String,
        download_pdf institute_code cap_round false (.error e)
          = (⟨local_path institute_code cap_round, false,
              "Error: " ++ pyTake e 50⟩, ⟨true, none⟩)) := by
  constructor
  · intro institute_code cap_round ct body h
    simp [download_pdf, h]
  · intro institute_code cap_round e
    rfl

/-- C6 witness: a `text/html` response is rejected without a write, and a
connection error is reported truncated without a write. -/
theorem download_failure_writes_nothing_witness :
    download_pdf "1002" "cap1" false (.ok ⟨"text/html", "x"⟩)
      = (⟨local_path "1002" "cap1", false, "Not a PDF"⟩, ⟨true, none⟩) ∧
    download_pdf "1002" "cap1" false (.error "connection reset")
      = (⟨local_path "1002" "cap1", false,
          "Error: " ++ pyTake "connection reset" 50⟩, ⟨true, none⟩) :=
  ⟨download_failure_writes_nothing.1 "1002" "cap1" "text/html" "x"
     (by decide),
   download_failure_writes_nothing.2 "1002" "cap1" "connection reset"⟩

/-- C8: the download phase runs exactly when the trimmed, case-folded answer
differs from the explicit no-answer `n` of the `(y/n, default=y)` prompt; in
particular the empty default runs it and a padded upper-case `N` skips it. -/
theorem download_prompt_gate :
    (∀ answer : String,
        run_download_phase answer = !(pyLower (pyStrip answer) == "n")) ∧
    run_download_phase "" = true ∧ run_download_phase " N " = false := by
  refine ⟨?_, by decide, by decide⟩
  intro answer
  simp only [run_download_phase]
  by_cases h : pyLower (pyStrip answer) = "n"
  · simp [h]
  · simp [h]

/-- C9: the Matcher can report found with an empty context — here the search
string spans the newline inserted between two pages, so no single line
contains it — and the Orchestrator then records a hit whose context is
empty. -/
theorem matcher_found_empty_context :
    search_pdf (.ok ["ab", "cd"]) "b\nc" = (true, []) ∧
    searchRound e2eCatalog ⟨true, ["1002_4.pdf"]⟩ (fun _ => .ok ["ab", "cd"])
        "b\nc"
      = [⟨"1002", "Test College", "1002_4.pdf", []⟩] := by
  decide

/-- C3: the Catalog Builder skips the header row; a row contributes exactly
when it has at least 3 cells and a purely numeric code cell, taking sequence
number, code and name from cells 0, 1 and 2; and a lookup returns the entry
of the last contributing row carrying that code. -/
theorem catalog_rows_lastwins (hdr : HtmlRow) (rows : List HtmlRow)
    (x : String) :
    dlookup (scrape_college_data (.ok (hdr :: rows))).2 x
      = ((rows.filterMap rowEntry).reverse.find? fun p => p.1 == x).map
          fun p => p.2 := by
  simp only [scrape_college_data, List.drop_succ_cons, List.drop_zero]
  rw [foldl_scrapeStep_filterMap, dlookup_foldl_dinsert]
  rw [show dlookup ([] : Catalog) x = none from rfl, Option.or_none]

/-- C4: on any scrape failure the Catalog Builder reports failure and
populates a non-empty catalog holding exactly the codes of the eight fixed
fallback ranges, each mapped to the generic name and an empty sequence
number. -/
theorem fallback_catalog_exact (e : String) :
    (scrape_college_data (.error e)).1 = false ∧
    (scrape_college_data (.error e)).2 ≠ [] ∧
    (∀ x : String,
        (dlookup (scrape_college_data (.error e)).2 x).isSome = true
          ↔ x ∈ fallbackCodes) ∧
    (∀ x ∈ fallbackCodes,
        dlookup (scrape_college_data (.error e)).2 x
          = some ⟨"", "Institute " ++ x, x⟩) := by
  refine ⟨by simp only [scrape_college_data], ?_, ?_, ?_⟩
  · simp only [scrape_college_data]
    intro hempty
    have h := dlookup_fallback_mem "1002" mem_fallbackCodes_1002
    rw [hempty] at h
    exact Option.noConfusion (h.symm.trans (rfl : dlookup [] "1002" = none)).symm
  · intro x
    simp only [scrape_college_data]
    exact dlookup_fallback_isSome x
  · intro x hx
    simp only [scrape_college_data]
    exact dlookup_fallback_mem x hx

/-- C4 witness: after a simulated network error, code `1002` is in the
fallback catalog with its generic entry. -/
theorem fallback_catalog_exact_witness :
    dlookup (scrape_college_data (.error "network error")).2 "1002"
      = some ⟨"", "Institute 1002", "1002"⟩ :=
  (fallback_catalog_exact "network error").2.2.2 "1002" mem_fallbackCodes_1002

/-- C7: any extraction error makes the Matcher return a synthetic not-found
result whose sole context line carries the error message, and the
Orchestrator's round loop produces the same results as if the failing file
were absent — it continues with the remaining files. -/
theorem extraction_error_skips :
    (∀ e s : String,
        search_pdf (.error e) s = (false, ["Error reading PDF: " ++ e])) ∧
    (∀ (d : Catalog) (ex : Bool) (files : List String)
        (extract : String → Except String (List String)) (s f e : String),
        extract f = .error e →
          searchRound d ⟨ex, f :: files⟩ extract s
            = searchRound d ⟨ex, files⟩ extract s) := by
  constructor
  · intro e s
    rfl
  · intro d ex files extract s f e hext
    rw [searchRound_eq_filterMap, searchRound_eq_filterMap]
    cases ex with
    | false => rfl
    | true =>
      have hgoal : List.filterMap
          (fun g => if (search_pdf (extract g) s).1 = true then
              some (SearchHit.mk (instCodeOfFile g)
                (resolveName d (instCodeOfFile g)) g
                (search_pdf (extract g) s).2)
            else none)
          (List.filter (fun g => pyEndsWith g ".pdf") (f :: files))
        = List.filterMap
          (fun g => if (search_pdf (extract g) s).1 = true then
              some (SearchHit.mk (instCodeOfFile g)
                (resolveName d (instCodeOfFile g)) g
                (search_pdf (extract g) s).2)
            else none)
          (List.filter (fun g => pyEndsWith g ".pdf") files) := by
        by_cases hf : pyEndsWith f ".pdf" = true
        · rw [show List.filter (fun g => pyEndsWith g ".pdf") (f :: files)
              = f :: List.filter (fun g => pyEndsWith g ".pdf") files by
            simp [hf]]
          rw [List.filterMap_cons, hext]
          rfl
        · rw [show List.filter (fun g => pyEndsWith g ".pdf") (f :: files)
              = List.filter (fun g => pyEndsWith g ".pdf") files by
            simp [hf]]
      exact hgoal

/-- C7 witness: a corrupt `bad.pdf` yields the synthetic not-found result,
and searching a directory containing it equals searching without it. -/
theorem extraction_error_skips_witness :
    search_pdf (.error "boom") "abc" = (false, ["Error reading PDF: boom"]) ∧
    searchRound e2eCatalog ⟨true, ["bad.pdf", "1002_4.pdf"]⟩ badExtract "doe"
      = searchRound e2eCatalog ⟨true, ["1002_4.pdf"]⟩ badExtract "doe" :=
  ⟨extraction_error_skips.1 "boom" "abc",
   extraction_error_skips.2 e2eCatalog true ["1002_4.pdf"] badExtract "doe"
     "bad.pdf" "broken" rfl⟩

/-- C10: the three download tallies always sum to twice the number of
catalog entries, whatever each task's outcome is. -/
theorem download_tallies_partition (d : Catalog)
    (outcome : String → String → Except String DLRes) :
    (download_all_pdfs d outcome).successful_downloads
        + (download_all_pdfs d outcome).already_exists
        + (download_all_pdfs d outcome).failed_downloads
      = 2 * d.length := by
  simp only [download_all_pdfs]
  rw [tally_foldl_total, flatMap_two_rounds_length]
  simp [dictKeys]

/-- C2: every hit of the round loop derives its institution code as the
filename's part before the first underscore and resolves its college name
through the catalog with the generic fallback; concretely, the end-to-end
scenario finds `doe` in any casing exactly once, in round `cap1`, with code
`1002`, name `Test College` and context `["John Doe"]` — and with an empty
catalog the name falls back to `Institute 1002`. -/
theorem orchestrator_codes_names_endtoend :
    (∀ (d : Catalog) (dir : RoundDir)
        (extract : String → Except String (List String)) (s : String)
        (h : SearchHit), h ∈ searchRound d dir extract s →
          h.institute_code = instCodeOfFile h.pdf_file ∧
          h.college_name = resolveName d (instCodeOfFile h.pdf_file)) ∧
    (∀ s : String, pyLower s = "doe" →
        search_all_pdfs e2eCatalog e2eRound1 e2eRound2 e2eExtract e2eExtract s
          = ⟨[⟨"1002", "Test College", "1002_4.pdf", ["John Doe"]⟩], []⟩) ∧
    search_all_pdfs [] e2eRound1 e2eRound2 e2eExtract e2eExtract "doe"
      = ⟨[⟨"1002", "Institute 1002", "1002_4.pdf", ["John Doe"]⟩], []⟩ := by
  refine ⟨?_, ?_, by decide⟩
  · intro d dir extract s h hmem
    rw [searchRound_eq_filterMap] at hmem
    by_cases hex : dir.dirExists
    · rw [if_pos hex] at hmem
      rcases List.mem_filterMap.mp hmem with ⟨f, hfmem, hsome⟩
      by_cases hfound : (search_pdf (extract f) s).1 = true
      · rw [if_pos hfound] at hsome
        injection hsome with h2
        subst h2
        exact ⟨rfl, rfl⟩
      · rw [if_neg hfound] at hsome
        exact Option.noConfusion hsome
    · rw [if_neg hex] at hmem
      exact absurd hmem (List.not_mem_nil h)
  · intro s hs
    have hlow : pyLower s = pyLower "doe" := by rw [hs]; rfl
    have hsp : search_pdf (e2eExtract "1002_4.pdf") s = (true, ["John Doe"]) := by
      rw [show e2eExtract "1002_4.pdf" = .ok ["John Doe\nJane Roe"] from rfl,
        search_pdf_congr _ s "doe" hlow]
      decide
    show SearchResults.mk _ _ = _
    rw [show e2eRound1 = (⟨true, ["1002_4.pdf"]⟩ : RoundDir) from rfl,
      searchRound_singleton e2eCatalog e2eExtract s "1002_4.pdf" (by decide),
      hsp]
    rfl

/-- C2 witness: searching `DOE` in the end-to-end scenario yields exactly the
claimed result, whose hit indeed carries the derived code and the resolved
name. -/
theorem orchestrator_codes_names_endtoend_witness :
    search_all_pdfs e2eCatalog e2eRound1 e2eRound2 e2eExtract e2eExtract "DOE"
      = ⟨[⟨"1002", "Test College", "1002_4.pdf", ["John Doe"]⟩], []⟩ ∧
    ("1002" : String) = instCodeOfFile "1002_4.pdf" ∧
    ("Test College" : String)
      = resolveName e2eCatalog (instCodeOfFile "1002_4.pdf") :=
  ⟨orchestrator_codes_names_endtoend.2.1 "DOE" (by decide),
   orchestrator_codes_names_endtoend.1 e2eCatalog e2eRound1 e2eExtract "DOE"
     ⟨"1002", "Test College", "1002_4.pdf", ["John Doe"]⟩ (by decide)⟩

end DSE
